import Mathlib

/-!
Verification of the fuel-core genesis import pipeline, the ContractsRawCode
storage layer, and the v0 (no-DA) gas price updater, against their
natural-language specification.  Definitions are shallow embeddings of the
Rust source:
  * crates/fuel-gas-price-algorithm/src/v1_no_da.rs
  * crates/fuel-core/src/service/genesis/importer.rs
  * crates/fuel-core/src/database/contracts.rs
Machine integers (u32/u64) are modelled as Nat with explicit saturation at
the type's maximum, matching the `saturating_*` / `checked_*` operations
used by the source.
-/

/-! ## Gas price updater (v1_no_da.rs) -/

/-- Maximum value of a Rust u64. -/
def U64_MAX : Nat := 18446744073709551615

/-- Maximum value of a Rust u32. -/
def U32_MAX : Nat := 4294967295

/-- Rust `u64::saturating_add`. -/
def satAdd64 (a b : Nat) : Nat := min (a + b) U64_MAX

/-- Rust `u64::saturating_mul`. -/
def satMul64 (a b : Nat) : Nat := min (a * b) U64_MAX

/-- Rust `u32::saturating_add`. -/
def satAdd32 (a b : Nat) : Nat := min (a + b) U32_MAX

/-- Error type of v1_no_da.rs (`Error`). -/
inductive GasError where
  | SkippedL2Block (expected got : Nat)
  | SkippedDABlock (expected got : Nat)
  | CouldNotCalculateCostPerByte (bytes cost : Nat)
deriving DecidableEq, Repr

/-- The state `AlgorithmUpdaterV0` of v1_no_da.rs.  u64 fields and the u32
`l2_block_height` are modelled as Nat. -/
structure AlgorithmUpdaterV0 where
  new_exec_price : Nat
  min_exec_gas_price : Nat
  exec_gas_price_change_percent : Nat
  l2_block_height : Nat
  l2_block_fullness_threshold_percent : Nat
deriving DecidableEq, Repr

namespace AlgorithmUpdaterV0

/-- `AlgorithmUpdaterV0::change_amount`: `principle.saturating_mul(percent).saturating_div(100)`. -/
def change_amount (s : AlgorithmUpdaterV0) (principle : Nat) : Nat :=
  satMul64 principle s.exec_gas_price_change_percent / 100

/-- `AlgorithmUpdaterV0::update_exec_gas_price`.  The fullness percentage is
`used.saturating_mul(100).checked_div(capacity)` defaulting to the configured
threshold when `capacity == 0`; the price then moves up, down, or stays,
and is finally clamped from below by `min_exec_gas_price`. -/
def update_exec_gas_price (s : AlgorithmUpdaterV0) (used capacity : Nat) :
    AlgorithmUpdaterV0 :=
  let exec_gas_price := s.new_exec_price
  let fullness_percent :=
    if capacity = 0 then s.l2_block_fullness_threshold_percent
    else satMul64 used 100 / capacity
  let exec_gas_price :=
    if fullness_percent > s.l2_block_fullness_threshold_percent then
      satAdd64 exec_gas_price (s.change_amount exec_gas_price)
    else if fullness_percent < s.l2_block_fullness_threshold_percent then
      exec_gas_price - s.change_amount exec_gas_price
    else
      exec_gas_price
  { s with new_exec_price := max s.min_exec_gas_price exec_gas_price }

/-- `AlgorithmUpdaterV0::update_l2_block_data`.  The Rust method takes
`&mut self` and returns `Result<(), Error>`; it is embedded as a function
returning the (possibly unchanged) state together with an optional error. -/
def update_l2_block_data (s : AlgorithmUpdaterV0) (height : Nat)
    (fullness : Nat × Nat) : Option GasError × AlgorithmUpdaterV0 :=
  let expected := satAdd32 s.l2_block_height 1
  if height ≠ expected then
    (some (.SkippedL2Block expected height), s)
  else
    let s := { s with l2_block_height := height }
    (none, s.update_exec_gas_price fullness.1 fullness.2)

/-- `AlgorithmUpdaterV0::algorithm` returns the current `new_exec_price`. -/
def algorithm (s : AlgorithmUpdaterV0) : Nat := s.new_exec_price

end AlgorithmUpdaterV0

/-! ## Snapshot importer (service/genesis/importer.rs)

The orchestration is embedded as an event trace: each `spawn_worker` call
emits a `read` event (query of the snapshot source), and on success a
`register` event (progress-reporter registration with the upfront group
count) followed by a `spawn` event (submission of the worker, carrying its
`Handler`, to the task manager).  Reading can fail, which aborts the whole
sequence with the structured error (abstracted as a `Nat`). -/

/-- The sixteen table kinds imported by `run_workers`. -/
inductive TableKind where
  | Coins
  | ContractsAssets
  | ContractsLatestUtxo
  | ContractsRawCode
  | ContractsState
  | FuelBlocks
  | Messages
  | OldFuelBlockConsensus
  | OldFuelBlocks
  | OldTransactions
  | OwnedTransactions
  | ProcessedTransactions
  | SealedBlockConsensus
  | SpentMessages
  | TransactionStatuses
  | Transactions
deriving DecidableEq, Repr

/-- The order in which `run_workers` spawns one worker per table kind
(importer.rs lines 73-88). -/
def tableKindOrder : List TableKind :=
  [.Coins, .ContractsAssets, .ContractsLatestUtxo, .ContractsRawCode,
   .ContractsState, .FuelBlocks, .Messages, .OldFuelBlockConsensus,
   .OldFuelBlocks, .OldTransactions, .OwnedTransactions,
   .ProcessedTransactions, .SealedBlockConsensus, .SpentMessages,
   .TransactionStatuses, .Transactions]

/-- The fields of the genesis `Block` header read by `spawn_worker`:
`header().height()` and `header().da_height`. -/
structure GenesisBlock where
  height : Nat
  da_height : Nat
deriving DecidableEq, Repr

/-- The `Handler` struct of importer.rs (lines 132-136). -/
structure Handler where
  block_height : Nat
  da_block_height : Nat
deriving DecidableEq, Repr

/-- `Handler::new` (importer.rs lines 139-144). -/
def Handler.new (block_height da_block_height : Nat) : Handler :=
  { block_height, da_block_height }

/-- A snapshot source: `SnapshotReader::read::<T>()` yields the table's
group sequence or fails with a structured error (abstracted as `Nat`).
Groups themselves are abstract (`Nat`); only their count matters here. -/
def SnapshotReader := TableKind → Except Nat (List Nat)

/-- Observable orchestration events of one import run. -/
inductive Event where
  | read (k : TableKind)
  | register (k : TableKind) (total : Nat)
  | spawn (k : TableKind) (h : Handler)
deriving DecidableEq, Repr

/-- `SnapshotImporter::spawn_worker::<T>` (importer.rs lines 95-129):
reads the table's groups (failing fast on a read error), registers the
upfront group count with the progress reporter, then submits the worker
with its freshly built `Handler` to the task manager. -/
def spawn_worker (reader : SnapshotReader) (gb : GenesisBlock)
    (k : TableKind) : List Event × Option Nat :=
  match reader k with
  | .error e => ([.read k], some e)
  | .ok groups =>
      ([.read k,
        .register k groups.length,
        .spawn k (Handler.new gb.height gb.da_height)], none)

/-- The sequence of `spawn_worker` calls of `run_workers` over a list of
table kinds: stops at the first read error, propagating it. -/
def spawnLoop (reader : SnapshotReader) (gb : GenesisBlock) :
    List TableKind → List Event × Option Nat
  | [] => ([], none)
  | k :: rest =>
      match spawn_worker reader gb k with
      | (evs, some e) => (evs, some e)
      | (evs, none) =>
          (evs ++ (spawnLoop reader gb rest).1, (spawnLoop reader gb rest).2)

/-- The spawning phase of `run_workers` (importer.rs lines 73-88): one
`spawn_worker` call per table kind, in the fixed order. -/
def spawnAllWorkers (reader : SnapshotReader) (gb : GenesisBlock) :
    List Event × Option Nat :=
  spawnLoop reader gb tableKindOrder

/-- The table kinds whose workers were submitted to the task manager in a
trace. -/
def spawnedTables (trace : List Event) : List TableKind :=
  trace.filterMap fun e =>
    match e with
    | .spawn k _ => some k
    | _ => none

/-- Modelled from the spec: the Task Manager lives in
service/genesis/task_manager.rs, which is not among the shown sources.
Per the spec, `wait()` joins all spawned jobs and "returns the first error
encountered, or success if all jobs succeeded".  `outcome k` is the result
of table kind `k`'s worker (`none` = success). -/
def TaskManager.wait (spawned : List TableKind)
    (outcome : TableKind → Option Nat) : Option Nat :=
  (spawned.filterMap outcome).head?

/-- `SnapshotImporter::run_workers` (importer.rs lines 71-93): spawn every
worker, then `self.task_manager.wait().await?`, then `Ok(())`.  Returns
the event trace together with the overall result. -/
def run_workers (reader : SnapshotReader) (gb : GenesisBlock)
    (outcome : TableKind → Option Nat) : List Event × Except Nat Unit :=
  match spawnAllWorkers reader gb with
  | (trace, some e) => (trace, .error e)
  | (trace, none) =>
      match TaskManager.wait (spawnedTables trace) outcome with
      | some e => (trace, .error e)
      | none => (trace, .ok ())

/-- `SnapshotImporter::import` (importer.rs lines 60-69): constructs the
importer and delegates to `run_workers`; its result is the run's result. -/
def importSnapshot (reader : SnapshotReader) (gb : GenesisBlock)
    (outcome : TableKind → Option Nat) : Except Nat Unit :=
  (run_workers reader gb outcome).2

/-! ## ContractsRawCode storage (database/contracts.rs)

contracts.rs routes every ContractsRawCode operation to the core
`Database` key-value primitives (`read_alloc`, `write`, `replace`, `take`,
`size_of_value`) at `Column::ContractsRawCode`, storing the contract byte
code as raw bytes. -/

/-- The storage columns referenced by contracts.rs. -/
inductive Column where
  | ContractsRawCode
  | ContractsState
  | ContractsAssets
  | ContractsLatestUtxo
deriving DecidableEq, Repr

/-- A `ContractId` key: 32 raw bytes (`key.as_ref()`), modelled as a byte
list. -/
abbrev ContractId := List Nat

/-- A `Contract` value wraps its raw byte code; `Contract::from(bytes)` and
`contract.as_ref()` convert to and from the bytes without change. -/
abbrev Contract := List Nat

/-- `Contract::from`: wraps raw bytes (identity on the byte content). -/
def Contract.from (bytes : List Nat) : Contract := bytes

/-- Modelled from the spec: the core `Database` column-family store (its
implementation is not among the shown sources; contracts.rs only delegates
to it).  Per the spec, each column offers a key/value contract whose large
binary values "are stored as raw bytes with no length prefix — the
column's own mechanism tracks size, not an embedded framing header".
Embedded as an association list from (column, key) to the raw stored
bytes; the most recent binding for a key is the visible one. -/
structure Database where
  entries : List ((Column × List Nat) × List Nat)
deriving DecidableEq, Repr

namespace Database

/-- Core `Database::read_alloc`: the bytes currently stored under the key
in the column, if any. -/
def read_alloc (d : Database) (key : List Nat) (col : Column) :
    Option (List Nat) :=
  (d.entries.lookup (col, key))

/-- Core `Database::size_of_value`: the stored byte length, tracked by the
column itself (no framing header). -/
def size_of_value (d : Database) (key : List Nat) (col : Column) :
    Option Nat :=
  (d.read_alloc key col).map List.length

/-- Core `Database::write`: stores `buf` verbatim under the key and
returns the number of bytes written. -/
def write (d : Database) (key : List Nat) (col : Column)
    (buf : List Nat) : Nat × Database :=
  (buf.length, { entries := ((col, key), buf) :: d.entries })

/-- Core `Database::replace`: stores `buf` verbatim under the key and
returns the bytes written together with the previously stored bytes. -/
def replace (d : Database) (key : List Nat) (col : Column)
    (buf : List Nat) : (Nat × Option (List Nat)) × Database :=
  let prev := d.read_alloc key col
  ((buf.length, prev), { entries := ((col, key), buf) :: d.entries })

/-- Core `Database::take`: removes the binding, returning the previously
stored bytes. -/
def take (d : Database) (key : List Nat) (col : Column) :
    Option (List Nat) × Database :=
  (d.read_alloc key col,
   { entries := d.entries.filter fun e => !(decide (e.1 = (col, key))) })

/-- Core `Database::contains_key`. -/
def contains_key (d : Database) (key : List Nat) (col : Column) : Bool :=
  (d.read_alloc key col).isSome

end Database

namespace ContractsRawCode

/-- `StorageInspect<ContractsRawCode>::get` (contracts.rs lines 48-55):
`read_alloc(key, Column::ContractsRawCode).map(Contract::from)`. -/
def get (d : Database) (key : ContractId) : Option Contract :=
  (d.read_alloc key Column.ContractsRawCode).map Contract.from

/-- `StorageInspect<ContractsRawCode>::contains_key` (lines 57-63). -/
def contains_key (d : Database) (key : ContractId) : Bool :=
  d.contains_key key Column.ContractsRawCode

/-- `StorageMutate<ContractsRawCode>::insert` (lines 71-83):
`Database::replace` at `Column::ContractsRawCode` with the contract's raw
bytes; returns the previous value mapped through `Contract::from`. -/
def insert (d : Database) (key : ContractId) (value : Contract) :
    Option Contract × Database :=
  let (existing, d') := d.replace key Column.ContractsRawCode value
  (existing.2.map Contract.from, d')

/-- `StorageMutate<ContractsRawCode>::remove` (lines 85-93):
`StorageWrite::take` mapped through `Contract::from`. -/
def remove (d : Database) (key : ContractId) : Option Contract × Database :=
  let (prev, d') := d.take key Column.ContractsRawCode
  (prev.map Contract.from, d')

/-- `StorageSize<ContractsRawCode>::size_of_value` (lines 96-100). -/
def size_of_value (d : Database) (key : ContractId) : Option Nat :=
  d.size_of_value key Column.ContractsRawCode

/-- `StorageRead<ContractsRawCode>::read_alloc` (lines 111-113). -/
def read_alloc (d : Database) (key : ContractId) : Option (List Nat) :=
  d.read_alloc key Column.ContractsRawCode

/-- `StorageWrite<ContractsRawCode>::write` (lines 117-124):
`Database::write` at `Column::ContractsRawCode`, returning the byte count
written. -/
def write (d : Database) (key : ContractId) (buf : List Nat) :
    Nat × Database :=
  d.write key Column.ContractsRawCode buf

/-- `StorageWrite<ContractsRawCode>::replace` (lines 126-140). -/
def replace (d : Database) (key : ContractId) (buf : List Nat) :
    (Nat × Option (List Nat)) × Database :=
  d.replace key Column.ContractsRawCode buf

/-- `StorageWrite<ContractsRawCode>::take` (lines 142-151). -/
def take (d : Database) (key : ContractId) : Option (List Nat) × Database :=
  d.take key Column.ContractsRawCode

end ContractsRawCode

/-! ## Specification vocabulary and concrete instances used in the proofs -/

/-- Checks that every `spawn` event in a trace is preceded by a `register`
event for the same table kind: `seen` accumulates the kinds registered so
far. -/
def regBeforeSpawnB (seen : List TableKind) : List Event → Bool
  | [] => true
  | Event.register k _ :: rest => regBeforeSpawnB (k :: seen) rest
  | Event.spawn k _ :: rest => seen.contains k && regBeforeSpawnB seen rest
  | Event.read _ :: rest => regBeforeSpawnB seen rest

/-- A snapshot source whose every table read succeeds with no groups. -/
def allOkReader : SnapshotReader := fun _ => .ok []

/-- A snapshot source whose read of the second table kind
(`ContractsAssets`) fails with structured error `7`; all other reads
succeed. -/
def failSecondReader : SnapshotReader := fun k =>
  match k with
  | .ContractsAssets => .error 7
  | _ => .ok []

/-- A concrete updater state used to instantiate the gas-price theorems. -/
def updaterEx : AlgorithmUpdaterV0 :=
  { new_exec_price := 100
    min_exec_gas_price := 10
    exec_gas_price_change_percent := 20
    l2_block_height := 5
    l2_block_fullness_threshold_percent := 50 }

/-! ## Theorems -/

theorem spawn_worker_error {reader : SnapshotReader} {gb : GenesisBlock}
    {k : TableKind} {e : Nat} (hr : reader k = .error e) :
    spawn_worker reader gb k = ([.read k], some e) := by
  simp [spawn_worker, hr]

theorem spawn_worker_ok {reader : SnapshotReader} {gb : GenesisBlock}
    {k : TableKind} {g : List Nat} (hr : reader k = .ok g) :
    spawn_worker reader gb k =
      ([.read k, .register k g.length,
        .spawn k (Handler.new gb.height gb.da_height)], none) := by
  simp [spawn_worker, hr]

theorem spawnedTables_append (l1 l2 : List Event) :
    spawnedTables (l1 ++ l2) = spawnedTables l1 ++ spawnedTables l2 := by
  simp [spawnedTables]

theorem spawnLoop_cons_error {reader : SnapshotReader} {gb : GenesisBlock}
    {k : TableKind} {e : Nat} (rest : List TableKind)
    (hr : reader k = .error e) :
    spawnLoop reader gb (k :: rest) = ([Event.read k], some e) := by
  rw [spawnLoop, spawn_worker_error hr]

theorem spawnLoop_cons_ok {reader : SnapshotReader} {gb : GenesisBlock}
    {k : TableKind} {g : List Nat} (rest : List TableKind)
    (hr : reader k = .ok g) :
    spawnLoop reader gb (k :: rest) =
      ([Event.read k, Event.register k g.length,
        Event.spawn k (Handler.new gb.height gb.da_height)]
          ++ (spawnLoop reader gb rest).1,
       (spawnLoop reader gb rest).2) := by
  rw [spawnLoop, spawn_worker_ok hr]

theorem spawnLoop_none_spawned (reader : SnapshotReader) (gb : GenesisBlock) :
    ∀ kinds, (spawnLoop reader gb kinds).2 = none →
      spawnedTables (spawnLoop reader gb kinds).1 = kinds := by
  intro kinds
  induction kinds with
  | nil => intro _; rfl
  | cons k rest ih =>
    intro h
    cases hr : reader k with
    | error e => rw [spawnLoop_cons_error rest hr] at h; simp at h
    | ok g =>
      rw [spawnLoop_cons_ok rest hr] at h ⊢
      rw [spawnedTables_append]
      have hblock : spawnedTables [Event.read k, Event.register k g.length,
          Event.spawn k (Handler.new gb.height gb.da_height)] = [k] := rfl
      rw [hblock, ih h]
      rfl

theorem spawnLoop_error_decomp (reader : SnapshotReader) (gb : GenesisBlock) :
    ∀ kinds e, (spawnLoop reader gb kinds).2 = some e →
      ∃ pre k post, kinds = pre ++ k :: post ∧ reader k = .error e ∧
        Event.read k ∈ (spawnLoop reader gb kinds).1 ∧
        spawnedTables (spawnLoop reader gb kinds).1 = pre ∧
        ∀ j ∈ pre, ∃ g, reader j = .ok g := by
  intro kinds
  induction kinds with
  | nil => intro e h; simp [spawnLoop] at h
  | cons k rest ih =>
    intro e h
    cases hr : reader k with
    | error e' =>
      rw [spawnLoop_cons_error rest hr] at h ⊢
      obtain rfl : e' = e := by simpa using h
      exact ⟨[], k, rest, rfl, hr, by simp, by simp [spawnedTables], by simp⟩
    | ok g =>
      rw [spawnLoop_cons_ok rest hr] at h ⊢
      obtain ⟨pre, k', post, hk, hrk, hread, hsp, hpre⟩ := ih e h
      refine ⟨k :: pre, k', post, by rw [hk]; rfl, hrk, ?_, ?_, ?_⟩
      · exact List.mem_append_right _ hread
      · rw [spawnedTables_append, hsp]
        simp [spawnedTables]
      · intro j hj
        rcases List.mem_cons.mp hj with rfl | hj
        · exact ⟨g, hr⟩
        · exact hpre j hj

theorem spawnLoop_spawn_handler (reader : SnapshotReader) (gb : GenesisBlock) :
    ∀ kinds k h, Event.spawn k h ∈ (spawnLoop reader gb kinds).1 →
      h = Handler.new gb.height gb.da_height := by
  intro kinds
  induction kinds with
  | nil => intro k h hm; simp [spawnLoop] at hm
  | cons k0 rest ih =>
    intro k h hm
    cases hr : reader k0 with
    | error e => rw [spawnLoop_cons_error rest hr] at hm; simp at hm
    | ok g =>
      rw [spawnLoop_cons_ok rest hr] at hm
      rcases List.mem_append.mp hm with hm | hm
      · simp at hm
        exact hm.2
      · exact ih k h hm

theorem spawnLoop_register_total (reader : SnapshotReader) (gb : GenesisBlock) :
    ∀ kinds k n, Event.register k n ∈ (spawnLoop reader gb kinds).1 →
      ∃ g, reader k = .ok g ∧ n = g.length := by
  intro kinds
  induction kinds with
  | nil => intro k n hm; simp [spawnLoop] at hm
  | cons k0 rest ih =>
    intro k n hm
    cases hr : reader k0 with
    | error e => rw [spawnLoop_cons_error rest hr] at hm; simp at hm
    | ok g =>
      rw [spawnLoop_cons_ok rest hr] at hm
      rcases List.mem_append.mp hm with hm | hm
      · simp at hm
        exact ⟨g, hm.1 ▸ hr, hm.2⟩
      · exact ih k n hm

theorem regBeforeSpawnB_spawnLoop (reader : SnapshotReader) (gb : GenesisBlock) :
    ∀ kinds seen, regBeforeSpawnB seen (spawnLoop reader gb kinds).1 = true := by
  intro kinds
  induction kinds with
  | nil => intro seen; rfl
  | cons k rest ih =>
    intro seen
    cases hr : reader k with
    | error e => rw [spawnLoop_cons_error rest hr]; rfl
    | ok g =>
      rw [spawnLoop_cons_ok rest hr]
      simp only [List.cons_append, List.nil_append, regBeforeSpawnB,
        List.append_eq]
      rw [ih (k :: seen)]
      simp [List.contains_cons]

theorem mem_tableKindOrder (k : TableKind) : k ∈ tableKindOrder := by
  cases k <;> simp [tableKindOrder]

/-- C1 counterexample: with a snapshot source whose read of the second
table kind (`ContractsAssets`) fails with error 7, the run returns that
read error even though the worker for `Coins` (spawned before the failing
read) has already been submitted to the task manager — so it is not true
that no worker of any table kind has been submitted when a read error is
returned. -/
theorem claim_C1_counterexample :
    (spawnAllWorkers failSecondReader ⟨5, 7⟩).2 = some 7 ∧
    Event.spawn TableKind.Coins (Handler.new 5 7) ∈
      (spawnAllWorkers failSecondReader ⟨5, 7⟩).1 := by
  decide

/-- C1 (amended): for every table kind, `spawn_worker` queries the
snapshot source before submitting anything, and when a read fails with a
structured error the error is surfaced with the failing table's worker —
and those of all later table kinds — never submitted to the task manager;
exactly the workers of the earlier table kinds, whose reads succeeded,
have been submitted. -/
theorem claim_C1_read_error_fail_fast (reader : SnapshotReader)
    (gb : GenesisBlock) (e : Nat)
    (h : (spawnAllWorkers reader gb).2 = some e) :
    ∃ pre k post, tableKindOrder = pre ++ k :: post ∧
      reader k = .error e ∧
      Event.read k ∈ (spawnAllWorkers reader gb).1 ∧
      spawnedTables (spawnAllWorkers reader gb).1 = pre ∧
      ∀ j ∈ pre, ∃ g, reader j = .ok g :=
  spawnLoop_error_decomp reader gb tableKindOrder e h

/-- Witness for the amended C1 at the concrete failing source. -/
theorem claim_C1_read_error_fail_fast_witness :
    ∃ pre k post, tableKindOrder = pre ++ k :: post ∧
      failSecondReader k = .error 7 ∧
      Event.read k ∈ (spawnAllWorkers failSecondReader ⟨5, 7⟩).1 ∧
      spawnedTables (spawnAllWorkers failSecondReader ⟨5, 7⟩).1 = pre ∧
      ∀ j ∈ pre, ∃ g, failSecondReader j = .ok g :=
  claim_C1_read_error_fail_fast failSecondReader ⟨5, 7⟩ 7 (by decide)

/-- C2: on every run that reaches the join point (no read failed, so all
spawning completed), exactly one worker per each of the sixteen table
kinds has been submitted, in the fixed order — no selective or partial
import. -/
theorem claim_C2_exhaustive_spawning (reader : SnapshotReader)
    (gb : GenesisBlock) (h : (spawnAllWorkers reader gb).2 = none) :
    spawnedTables (spawnAllWorkers reader gb).1 = tableKindOrder ∧
    ∀ k : TableKind,
      (spawnedTables (spawnAllWorkers reader gb).1).count k = 1 := by
  have h1 : spawnedTables (spawnAllWorkers reader gb).1 = tableKindOrder :=
    spawnLoop_none_spawned reader gb tableKindOrder h
  refine ⟨h1, fun k => ?_⟩
  rw [h1]
  cases k <;> decide

/-- Witness for C2 at a concrete all-successful source. -/
theorem claim_C2_exhaustive_spawning_witness :
    spawnedTables (spawnAllWorkers allOkReader ⟨5, 7⟩).1 = tableKindOrder :=
  (claim_C2_exhaustive_spawning allOkReader ⟨5, 7⟩ (by decide)).1

/-- C6: the handler passed to every submitted worker is built once from
the genesis block header — its `block_height` is the header's height and
its `da_block_height` the header's `da_height` — and all workers of one
run receive equal handlers. -/
theorem claim_C6_handler_from_genesis (reader : SnapshotReader)
    (gb : GenesisBlock) :
    (Handler.new gb.height gb.da_height).block_height = gb.height ∧
    (Handler.new gb.height gb.da_height).da_block_height = gb.da_height ∧
    (∀ k h, Event.spawn k h ∈ (spawnAllWorkers reader gb).1 →
        h = Handler.new gb.height gb.da_height) ∧
    (∀ k1 h1 k2 h2, Event.spawn k1 h1 ∈ (spawnAllWorkers reader gb).1 →
        Event.spawn k2 h2 ∈ (spawnAllWorkers reader gb).1 → h1 = h2) := by
  have base := spawnLoop_spawn_handler reader gb tableKindOrder
  exact ⟨rfl, rfl, base, fun k1 h1 k2 h2 hm1 hm2 => by
    rw [base k1 h1 hm1, base k2 h2 hm2]⟩

/-- Witness for C6: the handler of the `Coins` worker in a concrete run
equals the one built from the genesis header fields. -/
theorem claim_C6_handler_from_genesis_witness :
    Handler.new 5 7
      = Handler.new (GenesisBlock.mk 5 7).height (GenesisBlock.mk 5 7).da_height :=
  (claim_C6_handler_from_genesis allOkReader ⟨5, 7⟩).2.2.1
    TableKind.Coins (Handler.new 5 7) (by decide)

/-- C7: in every run's trace, each table's progress registration — whose
total is exactly the snapshot source's upfront group count — precedes the
submission of that table's worker to the task manager. -/
theorem claim_C7_register_before_spawn (reader : SnapshotReader)
    (gb : GenesisBlock) :
    regBeforeSpawnB [] (spawnAllWorkers reader gb).1 = true ∧
    ∀ k n, Event.register k n ∈ (spawnAllWorkers reader gb).1 →
      ∃ g, reader k = .ok g ∧ n = g.length :=
  ⟨regBeforeSpawnB_spawnLoop reader gb tableKindOrder [],
   fun k n hm => spawnLoop_register_total reader gb tableKindOrder k n hm⟩

/-- Witness for C7: the registered total of the `Coins` table in a
concrete run is the source's upfront group count. -/
theorem claim_C7_register_before_spawn_witness :
    ∃ g, allOkReader TableKind.Coins = Except.ok g ∧ 0 = g.length :=
  (claim_C7_register_before_spawn allOkReader ⟨5, 7⟩).2
    TableKind.Coins 0 (by decide)

/-- C5: the import has a single outcome channel: once spawning completed,
`importSnapshot` returns exactly the task manager's `wait()` result; and
it never returns success while some table kind's worker did not complete
successfully. -/
theorem claim_C5_single_outcome (reader : SnapshotReader) (gb : GenesisBlock)
    (outcome : TableKind → Option Nat) :
    ((spawnAllWorkers reader gb).2 = none →
      importSnapshot reader gb outcome =
        match TaskManager.wait (spawnedTables (spawnAllWorkers reader gb).1)
            outcome with
        | some e => Except.error e
        | none => Except.ok ()) ∧
    (importSnapshot reader gb outcome = .ok () →
      ∀ k : TableKind, outcome k = none) := by
  cases hsp : spawnAllWorkers reader gb with
  | mk trace r =>
    cases r with
    | some e =>
      constructor
      · intro h
        simp at h
      · intro h
        have himp : importSnapshot reader gb outcome = .error e := by
          simp [importSnapshot, run_workers, hsp]
        rw [himp] at h
        exact absurd h (by simp)
    | none =>
      have himp : importSnapshot reader gb outcome =
          match TaskManager.wait (spawnedTables trace) outcome with
          | some e => Except.error e
          | none => Except.ok () := by
        simp only [importSnapshot, run_workers, hsp]
        cases TaskManager.wait (spawnedTables trace) outcome <;> rfl
      constructor
      · intro _
        simp only [himp]
      · intro h k
        rw [himp] at h
        cases hw : TaskManager.wait (spawnedTables trace) outcome with
        | some e => rw [hw] at h; simp at h
        | none =>
          have hnil : (spawnedTables trace).filterMap outcome = [] := by
            simpa [TaskManager.wait, List.head?_eq_none_iff] using hw
          have hall : ∀ j ∈ spawnedTables trace, outcome j = none := by
            simpa [List.filterMap_eq_nil_iff] using hnil
          have h2 : (spawnAllWorkers reader gb).2 = none := by rw [hsp]
          have hsTr : spawnedTables (spawnAllWorkers reader gb).1
              = tableKindOrder :=
            spawnLoop_none_spawned reader gb tableKindOrder h2
          rw [hsp] at hsTr
          exact hall k (by rw [hsTr]; exact mem_tableKindOrder k)

/-- Witness for C5: a concrete run with every worker succeeding returns
success, and the theorem yields that every table kind's outcome was
success. -/
theorem claim_C5_single_outcome_witness :
    (fun _ : TableKind => (none : Option Nat)) TableKind.Coins = none :=
  (claim_C5_single_outcome allOkReader ⟨5, 7⟩ (fun _ => none)).2
    (by rfl) TableKind.Coins

/-- C3: for every key and every byte sequence, `write` into the
ContractsRawCode column followed by `read_alloc` yields the identical
bytes, `write` reports exactly the value's byte length, and the stored
size equals the written length — raw bytes, no framing overhead.  The
statement is universally quantified over the bytes, so it covers a 16 MiB
blob in particular. -/
theorem claim_C3_raw_blob_round_trip (d : Database) (key : ContractId)
    (bytes : List Nat) :
    (ContractsRawCode.write d key bytes).1 = bytes.length ∧
    ContractsRawCode.read_alloc (ContractsRawCode.write d key bytes).2 key
      = some bytes ∧
    ContractsRawCode.size_of_value (ContractsRawCode.write d key bytes).2 key
      = some bytes.length := by
  refine ⟨rfl, ?_, ?_⟩ <;>
    simp [ContractsRawCode.write, ContractsRawCode.read_alloc,
      ContractsRawCode.size_of_value, Database.write, Database.read_alloc,
      Database.size_of_value, List.lookup]

/-- C4: `insert` on the ContractsRawCode column returns the previous value
for an already-bound key and `none` for a fresh key, and a subsequent
`get` returns exactly the newly written value (last-write-wins). -/
theorem claim_C4_insert_last_write_wins (d : Database) (key : ContractId)
    (value prev : Contract) :
    (ContractsRawCode.get d key = some prev →
      (ContractsRawCode.insert d key value).1 = some prev) ∧
    (ContractsRawCode.get d key = none →
      (ContractsRawCode.insert d key value).1 = none) ∧
    ContractsRawCode.get (ContractsRawCode.insert d key value).2 key
      = some value := by
  refine ⟨?_, ?_, ?_⟩
  · intro h
    simpa [ContractsRawCode.insert, Database.replace, ContractsRawCode.get,
      Contract.from] using h
  · intro h
    simpa [ContractsRawCode.insert, Database.replace, ContractsRawCode.get,
      Contract.from] using h
  · simp [ContractsRawCode.insert, Database.replace, ContractsRawCode.get,
      Database.read_alloc, Contract.from, List.lookup]

/-- Witness for C4 at a concrete database, mirroring the `raw_code_put`
test: inserting contract code `[32]` under a fresh key returns `none`,
and reading it back returns the code. -/
theorem claim_C4_insert_last_write_wins_witness :
    (ContractsRawCode.insert ⟨[]⟩ [1] [32]).1 = none ∧
    ContractsRawCode.get (ContractsRawCode.insert ⟨[]⟩ [1] [32]).2 [1]
      = some [32] :=
  ⟨(claim_C4_insert_last_write_wins ⟨[]⟩ [1] [32] []).2.1 (by decide),
   (claim_C4_insert_last_write_wins ⟨[]⟩ [1] [32] []).2.2⟩

/-- C8: `update_l2_block_data` returns `Err(SkippedL2Block { expected, got })`
iff `height` differs from the saturating successor of `l2_block_height`; on
error the whole state is unchanged; on success `l2_block_height` is set to
`height`. -/
theorem claim_C8_skipped_l2_block (s : AlgorithmUpdaterV0) (height : Nat)
    (fullness : Nat × Nat) :
    ((s.update_l2_block_data height fullness).1
        = some (GasError.SkippedL2Block (satAdd32 s.l2_block_height 1) height)
      ↔ height ≠ satAdd32 s.l2_block_height 1)
    ∧ ((s.update_l2_block_data height fullness).1 ≠ none →
        (s.update_l2_block_data height fullness).2 = s)
    ∧ ((s.update_l2_block_data height fullness).1 = none →
        (s.update_l2_block_data height fullness).2.l2_block_height = height) := by
  by_cases h : height = satAdd32 s.l2_block_height 1
  · refine ⟨?_, ?_, ?_⟩ <;>
      simp [AlgorithmUpdaterV0.update_l2_block_data, h,
        AlgorithmUpdaterV0.update_exec_gas_price]
  · refine ⟨?_, ?_, ?_⟩ <;>
      simp [AlgorithmUpdaterV0.update_l2_block_data, h]

/-- Witness for C8 at a concrete state: updating with height 7 when the
next expected height is 6 yields the structured skipped-block error. -/
theorem claim_C8_skipped_l2_block_witness :
    (updaterEx.update_l2_block_data 7 (50, 100)).1
      = some (GasError.SkippedL2Block 6 7) := by
  have h := (claim_C8_skipped_l2_block updaterEx 7 (50, 100)).1
  exact h.mpr (by decide)

/-- C9: after every successful `update_l2_block_data`, the state satisfies
`new_exec_price >= min_exec_gas_price`. -/
theorem claim_C9_price_floor (s : AlgorithmUpdaterV0) (height : Nat)
    (fullness : Nat × Nat)
    (h : (s.update_l2_block_data height fullness).1 = none) :
    (s.update_l2_block_data height fullness).2.min_exec_gas_price ≤
      (s.update_l2_block_data height fullness).2.new_exec_price := by
  by_cases hh : height = satAdd32 s.l2_block_height 1
  · simp [AlgorithmUpdaterV0.update_l2_block_data, hh,
      AlgorithmUpdaterV0.update_exec_gas_price]
  · simp [AlgorithmUpdaterV0.update_l2_block_data, hh] at h

/-- Witness for C9 at a concrete state and a successful update. -/
theorem claim_C9_price_floor_witness :
    (updaterEx.update_l2_block_data 6 (50, 100)).2.min_exec_gas_price ≤
      (updaterEx.update_l2_block_data 6 (50, 100)).2.new_exec_price :=
  claim_C9_price_floor updaterEx 6 (50, 100) (by decide)

/-- C10: with `capacity == 0` the fullness division is guarded
(`checked_div` falls back to the configured threshold), the call still
succeeds, and `new_exec_price` ends as the maximum of
`min_exec_gas_price` and its previous value. -/
theorem claim_C10_zero_capacity (s : AlgorithmUpdaterV0) (height used : Nat)
    (h : height = satAdd32 s.l2_block_height 1) :
    (s.update_l2_block_data height (used, 0)).1 = none ∧
    (s.update_l2_block_data height (used, 0)).2.new_exec_price
      = max s.min_exec_gas_price s.new_exec_price := by
  subst h
  simp [AlgorithmUpdaterV0.update_l2_block_data,
    AlgorithmUpdaterV0.update_exec_gas_price]

/-- Witness for C10 at a concrete state with zero capacity. -/
theorem claim_C10_zero_capacity_witness :
    (updaterEx.update_l2_block_data 6 (50, 0)).1 = none ∧
    (updaterEx.update_l2_block_data 6 (50, 0)).2.new_exec_price
      = max 10 100 :=
  claim_C10_zero_capacity updaterEx 6 50 (by decide)
